import Mathlib

/-!
Verification development for the GabrilBot user-collection pipeline.

The definitions below are a shallow embedding of the Python source:
`bot/utils/database.py` (the SQLite `users` table and its operations) and
`bot/utils/telegram_parser.py` (the per-day collection pipeline).  The
`users` table is modelled as a list of rows in insertion order; SQLite
`INSERT OR IGNORE` under the `UNIQUE (user_id, collected_at, source_group)`
constraint is modelled as an appending insert guarded by a key lookup
against the current table state.  Remote I/O (the Telegram client) is
modelled by passing the remote data and the outcome of each fallible step
explicitly as arguments.
-/

/-- One row of the `users` table (`database.py`, `init_database`, lines
80-101): the thirteen columns written by `insert_users` and `add_user`.
The autoincrement `id` and the `created_at`/`updated_at` defaults are not
modelled: no operation of the core reads them. -/
structure UserRow where
  user_id : Int
  username : Option String
  first_name : Option String
  last_name : Option String
  phone : Option String
  gender : Option String
  is_premium : Option Bool
  is_verified : Option Bool
  last_activity : Option String
  collected_at : String
  source_group : Option String
  group_id : Option Int
  account_type : String
deriving DecidableEq, Repr

/-- The uniqueness key of `CONSTRAINT unique_user_collection UNIQUE
(user_id, collected_at, source_group)` in `init_database`. -/
def rowKey (r : UserRow) : Int × String × Option String :=
  (r.user_id, r.collected_at, r.source_group)

/-- Whether the current table state already holds a row with the same
uniqueness triple (the check SQLite performs for `INSERT OR IGNORE`). -/
def hasKey (store : List UserRow) (r : UserRow) : Bool :=
  store.any (fun s => decide (rowKey s = rowKey r))

/-- `DatabaseManager.insert_users` (`database.py`, lines 261-311): row-by-row
`INSERT OR IGNORE` returning the new table state and the number of rows
actually inserted (`cursor.rowcount` accumulated).  The batching by 1000 in
the source only groups the same row-by-row conflict check into statements;
it does not change which rows are kept, so it is not modelled. -/
def insert_users : List UserRow → List UserRow → List UserRow × Nat
  | store, [] => (store, 0)
  | store, r :: rest =>
    if hasKey store r then insert_users store rest
    else
      let res := insert_users (store ++ [r]) rest
      (res.1, res.2 + 1)

/-- `DatabaseManager.add_user` (`database.py`, lines 573-625): single-row
`INSERT OR IGNORE`; returns the new state and `cursor.rowcount > 0`. -/
def add_user (store : List UserRow) (r : UserRow) : List UserRow × Bool :=
  if hasKey store r then (store, false) else (store ++ [r], true)

/-- `DatabaseManager.get_existing_user_ids` (`database.py`, lines 432-450):
`SELECT DISTINCT user_id FROM users`; on any exception it returns the
empty set instead of raising.  `readOk` is the outcome of the guarded
database read. -/
def get_existing_user_ids (readOk : Bool) (store : List UserRow) : List Int :=
  if readOk then (store.map (fun r => r.user_id)).dedup else []

/-- The run-level dedup filter of `get_users_from_chats_enhanced`
(`telegram_parser.py`, lines 258-261): keep exactly the harvested rows
whose `user_id` (`row[0]`) is not in the existing identity set. -/
def dedupFilter (existing : List Int) (all_users : List UserRow) : List UserRow :=
  all_users.filter (fun r => decide (r.user_id ∉ existing))

/-- The persistence step of `get_users_from_chats_enhanced`
(`telegram_parser.py`, lines 254-266): read the existing identity set,
filter the harvested batch by `user_id`, and insert the remainder with
`insert_users`; when nothing survives the filter, `insert_users` is not
called at all.  Returns the new table state and the inserted count. -/
def runPersist (readOk : Bool) (store : List UserRow) (all_users : List UserRow) :
    List UserRow × Nat :=
  let existing := get_existing_user_ids readOk store
  let new_users := dedupFilter existing all_users
  if new_users.isEmpty then (store, 0) else insert_users store new_users

/-- The two mutating operations the core performs on the `users` table. -/
inductive DbOp where
  | insertUsers (rows : List UserRow)
  | addUser (row : UserRow)
deriving Repr

/-- Apply one database operation to a table state. -/
def applyOp (store : List UserRow) : DbOp → List UserRow
  | .insertUsers rows => (insert_users store rows).1
  | .addUser r => (add_user store r).1

/-- Run a sequence of database operations starting from the empty table. -/
def runOps (ops : List DbOp) : List UserRow :=
  ops.foldl applyOp []

/-- A concrete row: user 1 observed in group "G" in a first collection run. -/
def baseRow : UserRow :=
  { user_id := 1, username := some "@alice", first_name := some "Alice",
    last_name := none, phone := none, gender := none, is_premium := none,
    is_verified := none, last_activity := none,
    collected_at := "2024-01-15 10:00:00", source_group := some "G",
    group_id := some 77, account_type := "+400000001" }

/-- The same user observed in the same group by a later run: the
`collected_at` timestamp differs, so the uniqueness triple differs. -/
def laterRow : UserRow :=
  { baseRow with collected_at := "2024-01-16 10:00:00" }

/-- A row for a user not yet present in the store. -/
def freshRow : UserRow :=
  { baseRow with
    user_id := 2
    username := some "@bob"
    collected_at := "2024-01-16 10:00:00" }

-- `hasKey` decides exactly the existence of a row with the same triple.
theorem hasKey_iff (store : List UserRow) (r : UserRow) :
    hasKey store r = true ↔ ∃ s ∈ store, rowKey s = rowKey r := by
  simp [hasKey, List.any_eq_true]

-- Rows of the initial state survive `insert_users`.
theorem mem_insert_users_of_mem (store rows : List UserRow) (r : UserRow)
    (h : r ∈ store) : r ∈ (insert_users store rows).1 := by
  induction rows generalizing store with
  | nil => simpa [insert_users] using h
  | cons x rest ih =>
    by_cases hx : hasKey store x
    · simpa [insert_users, hx] using ih store h
    · simpa [insert_users, hx] using ih (store ++ [x]) (by simp [h])

-- Every row of the final state came from the initial state or the batch.
theorem mem_insert_users (store rows : List UserRow) (r : UserRow)
    (h : r ∈ (insert_users store rows).1) : r ∈ store ∨ r ∈ rows := by
  induction rows generalizing store with
  | nil => exact Or.inl (by simpa [insert_users] using h)
  | cons x rest ih =>
    by_cases hx : hasKey store x
    · rcases ih store (by simpa [insert_users, hx] using h) with h1 | h1
      · exact Or.inl h1
      · exact Or.inr (by simp [h1])
    · rcases ih (store ++ [x]) (by simpa [insert_users, hx] using h) with h1 | h1
      · rcases List.mem_append.1 h1 with h2 | h2
        · exact Or.inl h2
        · exact Or.inr (by simpa using Or.inl (by simpa using h2))
      · exact Or.inr (by simp [h1])

-- Every batch row ends with its user_id present in the final state.
theorem uid_covered_insert_users (store rows : List UserRow) (r : UserRow)
    (h : r ∈ rows) :
    r.user_id ∈ (insert_users store rows).1.map (fun s => s.user_id) := by
  induction rows generalizing store with
  | nil => cases h
  | cons x rest ih =>
    rcases List.mem_cons.1 h with rfl | hrest
    · by_cases hx : hasKey store r
      · rcases (hasKey_iff store r).1 hx with ⟨s, hs, hkey⟩
        have hmem := mem_insert_users_of_mem store rest s hs
        have : s.user_id = r.user_id := congrArg Prod.fst hkey
        simp only [insert_users, hx, if_true]
        exact List.mem_map.2 ⟨s, hmem, this⟩
      · have hmem := mem_insert_users_of_mem (store ++ [r]) rest r (by simp)
        simp only [insert_users, hx, if_false, Bool.false_eq_true]
        exact List.mem_map.2 ⟨r, hmem, rfl⟩
    · by_cases hx : hasKey store x
      · simpa [insert_users, hx] using ih store hrest
      · simpa [insert_users, hx] using ih (store ++ [x]) hrest

-- Every harvested row ends with its user_id present after `runPersist`.
theorem uid_covered_runPersist (store all_users : List UserRow) (r : UserRow)
    (h : r ∈ all_users) :
    r.user_id ∈ (runPersist true store all_users).1.map (fun s => s.user_id) := by
  unfold runPersist
  by_cases hmem : r.user_id ∈ get_existing_user_ids true store
  · have hstore : ∃ s ∈ store, s.user_id = r.user_id := by
      simpa [get_existing_user_ids, List.mem_dedup] using hmem
    rcases hstore with ⟨s, hs, huid⟩
    by_cases hempty : (dedupFilter (get_existing_user_ids true store) all_users).isEmpty
    · simp only [hempty, if_true]
      exact List.mem_map.2 ⟨s, hs, huid⟩
    · simp only [hempty, if_false, Bool.false_eq_true]
      exact List.mem_map.2 ⟨s, mem_insert_users_of_mem _ _ s hs, huid⟩
  · have hnew : r ∈ dedupFilter (get_existing_user_ids true store) all_users := by
      simp [dedupFilter, List.mem_filter, h, hmem]
    have hempty : (dedupFilter (get_existing_user_ids true store) all_users).isEmpty = false :=
      List.isEmpty_eq_false.2 (List.ne_nil_of_mem hnew)
    simp only [hempty, if_false, Bool.false_eq_true]
    exact uid_covered_insert_users _ _ r hnew

-- Inserting a batch preserves distinctness of the uniqueness triples.
theorem keys_nodup_insert_users (store rows : List UserRow)
    (h : (store.map rowKey).Nodup) :
    ((insert_users store rows).1.map rowKey).Nodup := by
  induction rows generalizing store with
  | nil => simpa [insert_users] using h
  | cons x rest ih =>
    by_cases hx : hasKey store x
    · simpa [insert_users, hx] using ih store h
    · have hnot : rowKey x ∉ store.map rowKey := by
        intro hmem
        rcases List.mem_map.1 hmem with ⟨s, hs, hkey⟩
        exact hx ((hasKey_iff store x).2 ⟨s, hs, hkey⟩)
      have hnew : ((store ++ [x]).map rowKey).Nodup := by
        rw [List.map_append]
        refine List.Nodup.append h (by simp) ?_
        intro a ha hb
        simp only [List.map_cons, List.map_nil, List.mem_singleton] at hb
        exact hnot (hb ▸ ha)
      simpa [insert_users, hx] using ih (store ++ [x]) hnew

-- A single `add_user` preserves distinctness of the uniqueness triples.
theorem keys_nodup_add_user (store : List UserRow) (r : UserRow)
    (h : (store.map rowKey).Nodup) :
    ((add_user store r).1.map rowKey).Nodup := by
  by_cases hx : hasKey store r
  · simpa [add_user, hx] using h
  · have hnot : rowKey r ∉ store.map rowKey := by
      intro hmem
      rcases List.mem_map.1 hmem with ⟨s, hs, hkey⟩
      exact hx ((hasKey_iff store r).2 ⟨s, hs, hkey⟩)
    rw [add_user, if_neg (by simp [hx]), List.map_append]
    refine List.Nodup.append h (by simp) ?_
    intro a ha hb
    simp only [List.map_cons, List.map_nil, List.mem_singleton] at hb
    exact hnot (hb ▸ ha)

-- Any operation sequence started from a triple-distinct state stays so.
theorem keys_nodup_foldl (ops : List DbOp) (store : List UserRow)
    (h : (store.map rowKey).Nodup) :
    ((ops.foldl applyOp store).map rowKey).Nodup := by
  induction ops generalizing store with
  | nil => simpa using h
  | cons op rest ih =>
    cases op with
    | insertUsers rows =>
      exact ih _ (keys_nodup_insert_users store rows h)
    | addUser r =>
      exact ih _ (keys_nodup_add_user store r h)

/-- C3: starting from the empty store, no sequence of `insert_users` and
`add_user` calls ever produces two rows sharing the uniqueness triple
(user_id, collected_at, source_group); and a candidate row whose triple is
already present is silently ignored: `add_user` returns the unchanged store
with `False`, and `insert_users` returns the unchanged store with count 0,
neither raising an error. -/
theorem C3_triple_uniqueness_invariant (ops : List DbOp) (r : UserRow) :
    ((runOps ops).map rowKey).Nodup ∧
    (rowKey r ∈ (runOps ops).map rowKey →
      add_user (runOps ops) r = (runOps ops, false) ∧
      insert_users (runOps ops) [r] = (runOps ops, 0)) := by
  constructor
  · exact keys_nodup_foldl ops [] (by simp)
  · intro hmem
    have hkey : hasKey (runOps ops) r = true := by
      rcases List.mem_map.1 hmem with ⟨s, hs, hkeyeq⟩
      exact (hasKey_iff _ r).2 ⟨s, hs, hkeyeq⟩
    constructor
    · simp [add_user, hkey]
    · simp [insert_users, hkey]

/-- Witness for C3 at a concrete input: after adding `baseRow` to the empty
store, re-adding a row with the same triple leaves the store unchanged and
reports no insertion. -/
theorem C3_witness :
    add_user (runOps [DbOp.addUser baseRow]) baseRow = (runOps [DbOp.addUser baseRow], false) ∧
    insert_users (runOps [DbOp.addUser baseRow]) [baseRow] = (runOps [DbOp.addUser baseRow], 0) :=
  (C3_triple_uniqueness_invariant [DbOp.addUser baseRow] baseRow).2 (by decide)

/-- C1 counterexample: user 1 is already in the store from a prior run
(`baseRow`); a later run observes the same user in the same group with a
different `collected_at`, so the uniqueness triple of `laterRow` is new.
The claim predicts a new, distinct row is persisted for the user; the code
inserts nothing and leaves the store unchanged, because the run-level
filter drops every harvested row whose `user_id` is already present. -/
theorem C1_counterexample :
    rowKey laterRow ≠ rowKey baseRow ∧
    runPersist true [baseRow] [laterRow] = ([baseRow], 0) := by
  decide

/-- C1 (amended): a later collection run never persists a new row for a
user whose `user_id` is already present in the store: every row of the
store after `runPersist` either was already there or carries a `user_id`
absent from the prior store.  The triple (user_id, collected_at,
source_group) governs uniqueness only inside `insert_users`; the run-level
dedup of `get_users_from_chats_enhanced` filters by `user_id` alone. -/
theorem C1_user_id_filter_blocks_known_users (store rows : List UserRow) (r : UserRow)
    (hr : r ∈ (runPersist true store rows).1) :
    r ∈ store ∨ r.user_id ∉ store.map (fun s => s.user_id) := by
  unfold runPersist at hr
  by_cases hempty : (dedupFilter (get_existing_user_ids true store) rows).isEmpty
  · rw [if_pos hempty] at hr
    exact Or.inl hr
  · rw [if_neg hempty] at hr
    rcases mem_insert_users _ _ r hr with h | h
    · exact Or.inl h
    · right
      have := (List.mem_filter.1 h).2
      intro hmem
      simp only [decide_eq_true_eq] at this
      exact this (by simpa [get_existing_user_ids, List.mem_dedup] using hmem)

/-- Witness for the amended C1: a genuinely fresh user (`freshRow`) does
get persisted, and the theorem classifies it as carrying a `user_id`
absent from the prior store. -/
theorem C1_witness :
    freshRow ∈ [baseRow] ∨ freshRow.user_id ∉ [baseRow].map (fun s => s.user_id) :=
  C1_user_id_filter_blocks_known_users [baseRow] [freshRow] freshRow (by decide)

/-- C2: running the collection twice for the same account and date with the
remote history unchanged (every sender harvested by the second run was
already harvested by the first, whatever its re-read profile fields or new
`collected_at` look like) inserts zero rows on the second run. -/
theorem C2_second_run_inserts_zero (store run1 run2 : List UserRow)
    (h : ∀ r ∈ run2, ∃ s ∈ run1, s.user_id = r.user_id) :
    (runPersist true (runPersist true store run1).1 run2).2 = 0 := by
  set store1 := (runPersist true store run1).1 with hstore1
  have hall : ∀ r ∈ run2, r.user_id ∈ store1.map (fun s => s.user_id) := by
    intro r hr
    rcases h r hr with ⟨s, hs, huid⟩
    have := uid_covered_runPersist store run1 s hs
    rw [← hstore1] at this
    exact huid ▸ this
  have hfilter : dedupFilter (get_existing_user_ids true store1) run2 = [] := by
    unfold dedupFilter
    rw [List.filter_eq_nil_iff]
    intro r hr
    simp only [decide_eq_true_eq, Decidable.not_not]
    simpa [get_existing_user_ids, List.mem_dedup] using hall r hr
  unfold runPersist
  simp only [hfilter]
  simp

/-- Witness for C2: first run persists `baseRow` into the empty store; the
second run re-observes user 1 (as `laterRow`, new timestamp) and inserts
zero rows. -/
theorem C2_witness :
    (runPersist true (runPersist true [] [baseRow]).1 [laterRow]).2 = 0 :=
  C2_second_run_inserts_zero [] [baseRow] [laterRow] (by decide)

/-- C10: when the guarded identity-set read fails, `get_existing_user_ids`
returns the empty set instead of raising; the run-level dedup filter then
passes every harvested candidate through to insertion, and only the
`INSERT OR IGNORE` uniqueness constraint inside `insert_users` rejects a
candidate whose triple is already present, leaving the store unchanged. -/
theorem C10_read_failure_empty_set (store rows : List UserRow) (r : UserRow) :
    get_existing_user_ids false store = [] ∧
    dedupFilter (get_existing_user_ids false store) rows = rows ∧
    (rows.isEmpty = false → runPersist false store rows = insert_users store rows) ∧
    (rowKey r ∈ store.map rowKey → insert_users store [r] = (store, 0)) := by
  refine ⟨rfl, ?_, ?_, ?_⟩
  · simp [dedupFilter, get_existing_user_ids]
  · intro hne
    have h1 : dedupFilter (get_existing_user_ids false store) rows = rows := by
      simp [dedupFilter, get_existing_user_ids]
    unfold runPersist
    simp only [h1, hne]
    simp
  · intro hmem
    have hkey : hasKey store r = true := by
      rcases List.mem_map.1 hmem with ⟨s, hs, hkeyeq⟩
      exact (hasKey_iff _ r).2 ⟨s, hs, hkeyeq⟩
    simp [insert_users, hkey]

/-- A dialog as observed through the client (`telegram_parser.py`, lines
210-221): the fields the filter and the harvest read.  A missing
`participants_count` attribute on the entity is `none`. -/
structure Dialog where
  id : Int
  title : String
  is_group : Bool
  archived : Bool
  participants_count : Option Int
deriving DecidableEq, Repr

/-- The group filter of `get_users_from_chats_enhanced` (lines 213-221):
groups, not archived, and with more than 10 members when the member count
is exposed; dialogs without the attribute are kept. -/
def dialogFilter (d : Dialog) : Bool :=
  d.is_group && !d.archived &&
    (match d.participants_count with
     | some n => decide (n > 10)
     | none => true)

/-- The `filtered_dialogs` list built by the loop in
`get_users_from_chats_enhanced` (lines 213-221). -/
def filtered_dialogs (dialogs : List Dialog) : List Dialog :=
  dialogs.filter dialogFilter

/-- The profile fields read off a message sender
(`telegram_parser.py`, lines 139-157). -/
structure TgUser where
  username : Option String
  first_name : Option String
  last_name : Option String
  phone : Option String
  premium : Option Bool
  verified : Option Bool
deriving DecidableEq, Repr

/-- A message as observed through the client: its ID, the calendar day of
its date (as an abstract day number compared against the target date), its
formatted timestamp, and its sender.  `sender = none` models a message
whose sender cannot be resolved. -/
structure Message where
  id : Int
  dateDay : Int
  dateTime : String
  sender_id : Int
  sender : Option TgUser
deriving DecidableEq, Repr

/-- The username normalization of `process_dialog_enhanced` (lines 145-148)
and `create_user_row` (lines 42-45): `if username and not
username.startswith(chr 64): username = chr 64 + username`.  A falsy
username (absent, or the empty string) is left untouched. -/
def normalizeUsername (u : Option String) : Option String :=
  match u with
  | none => none
  | some s => if s ≠ "" ∧ ¬ s.startsWith "@" then some ("@" ++ s) else some s

/-- The row built for a newly seen sender inside `process_dialog_enhanced`
(lines 150-165), positionally matched to the columns `insert_users`
writes. -/
def mkSnapshotRow (d : Dialog) (accountPhone : String) (collectedTime : String)
    (m : Message) (u : TgUser) : UserRow :=
  { user_id := m.sender_id
    username := normalizeUsername u.username
    first_name := u.first_name
    last_name := u.last_name
    phone := u.phone
    gender := none
    is_premium := u.premium
    is_verified := u.verified
    last_activity := some m.dateTime
    collected_at := collectedTime
    source_group := some d.title
    group_id := some d.id
    account_type := accountPhone }

/-- `create_user_row` (`telegram_parser.py`, lines 38-62): the standalone
row builder with the same username normalization; `group_info` absent
yields null group fields. -/
def create_user_row (u : TgUser) (uid : Int) (group_info : Option Dialog)
    (accountType : String) (collectedTime : String) : UserRow :=
  { user_id := uid
    username := normalizeUsername u.username
    first_name := u.first_name
    last_name := u.last_name
    phone := u.phone
    gender := none
    is_premium := u.premium
    is_verified := u.verified
    last_activity := none
    collected_at := collectedTime
    source_group := (group_info.map (fun g => g.title))
    group_id := (group_info.map (fun g => g.id))
    account_type := accountType }

/-- Modelled from the spec: the bounded message walk of the external
client (`client.iter_messages(dialog.id, min_id, max_id)`), whose bound
semantics live outside this repository.  Per the spec ("walks all messages
whose ID falls in the widened range"), it yields exactly the messages of
the chat history whose ID lies in the inclusive range `[lo, hi]`. -/
def iter_messages_range (history : List Message) (lo hi : Int) : List Message :=
  history.filter (fun m => decide (lo ≤ m.id ∧ m.id ≤ hi))

/-- The message range examined by `process_dialog_enhanced` (line 129):
the locator bounds widened by one on each side,
`min_id=min_id - 1, max_id=max_id + 1`. -/
def harvestedMessages (history : List Message) (min_id max_id : Int) : List Message :=
  iter_messages_range history (min_id - 1) (max_id + 1)

/-- The loop state of `process_dialog_enhanced` (lines 126-170): the
result rows, the `unique_senders` identity set (kept in first-seen order),
and the running `message_count`. -/
structure HarvestAcc where
  users : List UserRow
  unique_senders : List Int
  message_count : Nat
deriving Repr

/-- One iteration of the message loop of `process_dialog_enhanced` (lines
129-170): a message on the target day with a resolvable sender is counted;
its sender, when seen for the first time, contributes one snapshot row and
joins the identity set. -/
def stepMessage (d : Dialog) (accountPhone : String) (collectedTime : String)
    (date_target : Int) (acc : HarvestAcc) (m : Message) : HarvestAcc :=
  match m.sender with
  | none => acc
  | some u =>
    if m.dateDay = date_target then
      if m.sender_id ∈ acc.unique_senders then
        { acc with message_count := acc.message_count + 1 }
      else
        { users := acc.users ++ [mkSnapshotRow d accountPhone collectedTime m u]
          unique_senders := acc.unique_senders ++ [m.sender_id]
          message_count := acc.message_count + 1 }
    else acc

/-- `process_dialog_enhanced` (`telegram_parser.py`, lines 103-178):
non-groups contribute nothing; a chat whose date boundaries were not both
found contributes nothing; otherwise the widened message range is walked
and the first-seen-per-sender rows are returned. -/
def process_dialog_enhanced (d : Dialog) (accountPhone : String)
    (collectedTime : String) (date_target : Int) (history : List Message)
    (bounds : Option Int × Option Int) : List UserRow :=
  if d.is_group then
    match bounds with
    | (some min_id, some max_id) =>
      ((harvestedMessages history min_id max_id).foldl
        (stepMessage d accountPhone collectedTime date_target)
        ⟨[], [], 0⟩).users
    | _ => []
  else []

/-- A concrete qualifying group. -/
def exDialog : Dialog :=
  { id := 77, title := "G", is_group := true, archived := false,
    participants_count := some 20 }

/-- A message carrying only an ID, for exercising the examined range. -/
def probeMessage (i : Int) : Message :=
  { id := i, dateDay := 0, dateTime := "", sender_id := 0, sender := none }

/-- A dense chat history holding one message for every ID from 98 to 202. -/
def denseHistory : List Message :=
  (List.range 105).map (fun k => probeMessage (98 + (k : Int)))

/-- C4: with both locator bounds present, the harvest step examines
exactly the history messages whose ID lies in the inclusive range
[first_id - 1, last_id + 1]; instantiated at locator result (100, 200)
over a history with one message per ID from 98 to 202, the examined IDs
are exactly 99 through 201. -/
theorem C4_examined_range (history : List Message) (first_id last_id : Int)
    (m : Message) :
    (m ∈ harvestedMessages history first_id last_id ↔
      m ∈ history ∧ first_id - 1 ≤ m.id ∧ m.id ≤ last_id + 1) ∧
    (harvestedMessages denseHistory 100 200).map (fun x => x.id) =
      (List.range 103).map (fun k => 99 + (k : Int)) := by
  constructor
  · simp [harvestedMessages, iter_messages_range, List.mem_filter, and_assoc]
  · decide

-- The snapshot rows and the identity set grow in lockstep.
theorem harvest_users_align (d : Dialog) (ap ct : String) (t : Int)
    (msgs : List Message) (acc : HarvestAcc)
    (h : acc.users.map (fun r => r.user_id) = acc.unique_senders) :
    (msgs.foldl (stepMessage d ap ct t) acc).users.map (fun r => r.user_id)
      = (msgs.foldl (stepMessage d ap ct t) acc).unique_senders := by
  induction msgs generalizing acc with
  | nil => simpa using h
  | cons m rest ih =>
    rw [List.foldl_cons]
    apply ih
    unfold stepMessage
    cases hs : m.sender with
    | none => simpa using h
    | some u =>
      by_cases hd : m.dateDay = t
      · by_cases hm : m.sender_id ∈ acc.unique_senders
        · simpa [hd, hm] using h
        · simp [hd, hm, h, mkSnapshotRow]
      · simpa [hd] using h

-- The identity set of seen senders stays duplicate-free.
theorem harvest_senders_nodup (d : Dialog) (ap ct : String) (t : Int)
    (msgs : List Message) (acc : HarvestAcc)
    (h : acc.unique_senders.Nodup) :
    (msgs.foldl (stepMessage d ap ct t) acc).unique_senders.Nodup := by
  induction msgs generalizing acc with
  | nil => simpa using h
  | cons m rest ih =>
    rw [List.foldl_cons]
    apply ih
    unfold stepMessage
    cases hs : m.sender with
    | none => simpa using h
    | some u =>
      by_cases hd : m.dateDay = t
      · by_cases hm : m.sender_id ∈ acc.unique_senders
        · simpa [hd, hm] using h
        · simp only [hd, if_true, hm, if_false]
          refine List.Nodup.append h (by simp) ?_
          intro a ha hb
          simp only [List.mem_singleton] at hb
          exact hm (hb ▸ ha)
      · simpa [hd] using h

-- A sender is in the final identity set exactly when it was already there
-- or some walked message on the target day resolves to it.
theorem harvest_senders_mem (d : Dialog) (ap ct : String) (t : Int)
    (msgs : List Message) (acc : HarvestAcc) (s : Int) :
    s ∈ (msgs.foldl (stepMessage d ap ct t) acc).unique_senders ↔
      s ∈ acc.unique_senders ∨
        ∃ m ∈ msgs, m.dateDay = t ∧ m.sender ≠ none ∧ m.sender_id = s := by
  induction msgs generalizing acc with
  | nil => simp
  | cons m rest ih =>
    rw [List.foldl_cons, ih]
    have hstep : s ∈ (stepMessage d ap ct t acc m).unique_senders ↔
        s ∈ acc.unique_senders ∨
          (m.dateDay = t ∧ m.sender ≠ none ∧ m.sender_id = s) := by
      unfold stepMessage
      cases hs : m.sender with
      | none => simp [hs]
      | some u =>
        by_cases hd : m.dateDay = t
        · by_cases hm : m.sender_id ∈ acc.unique_senders
          · simp only [hd, if_true, hm, hs]
            constructor
            · exact Or.inl
            · rintro (h | ⟨_, _, rfl⟩)
              · exact h
              · exact hm
          · simp [hd, hm, hs, eq_comm]
        · simp [hd, hs]
    rw [hstep]
    constructor
    · rintro ((h | h) | ⟨m1, hm1, hq⟩)
      · exact Or.inl h
      · exact Or.inr ⟨m, by simp, h⟩
      · exact Or.inr ⟨m1, by simp [hm1], hq⟩
    · rintro (h | ⟨m1, hm1, hq⟩)
      · exact Or.inl (Or.inl h)
      · rcases List.mem_cons.1 hm1 with rfl | hm1
        · exact Or.inl (Or.inr hq)
        · exact Or.inr ⟨m1, hm1, hq⟩

/-- C5: for a group dialog and locator bounds both present, the harvested
result has exactly one snapshot per distinct sender with a message on the
target day inside the examined range, and none for any other sender; in
particular all messages of one sender collapse to one snapshot. -/
theorem C5_one_snapshot_per_sender (d : Dialog) (ap ct : String) (t : Int)
    (history : List Message) (min_id max_id : Int) (s : Int)
    (hgroup : d.is_group = true) :
    ((process_dialog_enhanced d ap ct t history (some min_id, some max_id)).map
        (fun r => r.user_id)).count s =
      if ∃ m ∈ harvestedMessages history min_id max_id,
           m.dateDay = t ∧ m.sender ≠ none ∧ m.sender_id = s then 1 else 0 := by
  have halign := harvest_users_align d ap ct t
    (harvestedMessages history min_id max_id) ⟨[], [], 0⟩ (by simp)
  have hnodup := harvest_senders_nodup d ap ct t
    (harvestedMessages history min_id max_id) ⟨[], [], 0⟩ (by simp)
  have hmem := harvest_senders_mem d ap ct t
    (harvestedMessages history min_id max_id) ⟨[], [], 0⟩ s
  unfold process_dialog_enhanced
  simp only [hgroup, if_true]
  rw [halign]
  by_cases hex : ∃ m ∈ harvestedMessages history min_id max_id,
      m.dateDay = t ∧ m.sender ≠ none ∧ m.sender_id = s
  · rw [if_pos hex]
    refine List.count_eq_one_of_mem hnodup ?_
    exact hmem.2 (Or.inr hex)
  · rw [if_neg hex]
    refine List.count_eq_zero_of_not_mem ?_
    intro hc
    rcases hmem.1 hc with h | h
    · simp at h
    · exact hex h

/-- A sender profile used by the concrete harvest runs. -/
def aliceUser : TgUser :=
  { username := some "alice", first_name := some "Alice", last_name := none,
    phone := none, premium := some false, verified := some false }

/-- Two messages by the same sender on the target day. -/
def msgA : Message :=
  { id := 100, dateDay := 7, dateTime := "2024-01-15 12:00:00",
    sender_id := 1, sender := some aliceUser }

/-- Second message of the same sender. -/
def msgB : Message :=
  { id := 101, dateDay := 7, dateTime := "2024-01-15 12:05:00",
    sender_id := 1, sender := some aliceUser }

/-- Witness for C5: the sender posting twice in the examined range on the
target day yields a count of exactly one snapshot. -/
theorem C5_witness :
    ((process_dialog_enhanced exDialog "+400000001" "2024-01-15 13:00:00" 7
        [msgA, msgB] (some 100, some 101)).map (fun r => r.user_id)).count 1 =
      if ∃ m ∈ harvestedMessages [msgA, msgB] 100 101,
           m.dateDay = 7 ∧ m.sender ≠ none ∧ m.sender_id = 1 then 1 else 0 :=
  C5_one_snapshot_per_sender exDialog "+400000001" "2024-01-15 13:00:00" 7
    [msgA, msgB] 100 101 1 rfl

/-- C8: a dialog survives the fan-out filter exactly when it is a group,
is not archived, and either exposes no member count or has strictly more
than 10 members; every other dialog is excluded. -/
theorem C8_group_filter (dialogs : List Dialog) (d : Dialog) :
    d ∈ filtered_dialogs dialogs ↔
      d ∈ dialogs ∧ d.is_group = true ∧ d.archived = false ∧
        (d.participants_count = none ∨
          ∃ n, d.participants_count = some n ∧ 10 < n) := by
  rw [filtered_dialogs, List.mem_filter]
  unfold dialogFilter
  cases hpc : d.participants_count with
  | none => simp [hpc, and_assoc]
  | some n => simp [hpc, and_assoc]

-- The normalized username is null, the empty string, or carries a
-- leading commercial-at marker (already present, or freshly prepended).
theorem normalizeUsername_cases (u : Option String) :
    normalizeUsername u = none ∨ normalizeUsername u = some "" ∨
      ∃ s, normalizeUsername u = some s ∧
        (s.startsWith "@" = true ∨ ∃ v, s = "@" ++ v) := by
  cases u with
  | none => exact Or.inl rfl
  | some s =>
    by_cases h0 : s = ""
    · subst h0
      right; left
      simp [normalizeUsername]
    · by_cases hA : s.startsWith "@"
      · right; right
        exact ⟨s, by simp [normalizeUsername, h0, hA], Or.inl hA⟩
      · right; right
        refine ⟨"@" ++ s, by simp [normalizeUsername, h0, hA], Or.inr ⟨s, rfl⟩⟩

-- Every row produced by the harvest loop satisfies any property all
-- snapshot rows satisfy, given the starting rows do.
theorem harvest_users_all (d : Dialog) (ap ct : String) (t : Int)
    (P : UserRow → Prop)
    (hP : ∀ m u, P (mkSnapshotRow d ap ct m u))
    (msgs : List Message) (acc : HarvestAcc)
    (hacc : ∀ x ∈ acc.users, P x) :
    ∀ r ∈ (msgs.foldl (stepMessage d ap ct t) acc).users, P r := by
  induction msgs generalizing acc with
  | nil => simpa using hacc
  | cons m rest ih =>
    rw [List.foldl_cons]
    apply ih
    intro x hx
    unfold stepMessage at hx
    cases hs : m.sender with
    | none =>
      rw [hs] at hx
      exact hacc x hx
    | some u =>
      rw [hs] at hx
      by_cases hd : m.dateDay = t
      · by_cases hm : m.sender_id ∈ acc.unique_senders
        · simp only [hd, if_true, hm] at hx
          exact hacc x hx
        · simp only [hd, if_true, hm, if_false] at hx
          rcases List.mem_append.1 hx with h | h
          · exact hacc x h
          · simp only [List.mem_singleton] at h
            exact h ▸ hP m u
      · simp only [hd] at hx
        exact hacc x hx

/-- A sender profile whose remote username is present but empty. -/
def emptyNameUser : TgUser :=
  { username := some "", first_name := none, last_name := none,
    phone := none, premium := none, verified := none }

/-- A target-day message sent by the empty-username profile. -/
def emptyNameMessage : Message :=
  { id := 100, dateDay := 7, dateTime := "2024-01-15 12:00:00",
    sender_id := 9, sender := some emptyNameUser }

/-- C9 counterexample: a remote profile whose username is the empty
string passes the falsy guard untouched, so the produced snapshot carries
the empty string as its username: not null, and not starting with the
commercial-at marker.  This falsifies the claim that every snapshot
username is either null or carries the marker and that an absent username
is never the empty string. -/
theorem C9_counterexample :
    (process_dialog_enhanced exDialog "+400000001" "2024-01-15 13:00:00" 7
        [emptyNameMessage] (some 100, some 100)).map (fun r => r.username) =
      [some ""] ∧
    ("" : String).startsWith "@" = false ∧
    (some "" : Option String) ≠ (none : Option String) := by
  constructor
  · rfl
  · constructor
    · rfl
    · simp

/-- C9 (amended): every snapshot produced by the harvester has a username
that is null (absent remote username), or the empty string (remote
username present but empty, passed through by the falsy guard), or begins
with the commercial-at marker (prepended when missing); a non-empty
username never loses the marker and an absent one is always null. -/
theorem C9_username_normalized (d : Dialog) (ap ct : String) (t : Int)
    (history : List Message) (bounds : Option Int × Option Int) (r : UserRow)
    (hr : r ∈ process_dialog_enhanced d ap ct t history bounds) :
    r.username = none ∨ r.username = some "" ∨
      ∃ s, r.username = some s ∧
        (s.startsWith "@" = true ∨ ∃ v, s = "@" ++ v) := by
  unfold process_dialog_enhanced at hr
  split at hr
  · split at hr
    · refine harvest_users_all d ap ct t
        (fun x => x.username = none ∨ x.username = some "" ∨
          ∃ s, x.username = some s ∧
            (s.startsWith "@" = true ∨ ∃ v, s = "@" ++ v))
        (fun m u => ?_) _ ⟨[], [], 0⟩ (by simp) r hr
      simpa [mkSnapshotRow] using normalizeUsername_cases u.username
    · simp at hr
  · simp at hr

/-- The snapshot row produced for the empty-username profile. -/
def emptyNameRow : UserRow :=
  mkSnapshotRow exDialog "+400000001" "2024-01-15 13:00:00"
    emptyNameMessage emptyNameUser

/-- Witness for the amended C9: the trichotomy evaluated on the snapshot
harvested from the empty-username profile. -/
theorem C9_witness :
    emptyNameRow.username = none ∨ emptyNameRow.username = some "" ∨
      ∃ s, emptyNameRow.username = some s ∧
        (s.startsWith "@" = true ∨ ∃ v, s = "@" ++ v) :=
  C9_username_normalized exDialog "+400000001" "2024-01-15 13:00:00" 7
    [emptyNameMessage] (some 100, some 100) emptyNameRow (by decide)

/-- The final outcome of the boundary-probe body of `find_date_boundaries`
(`telegram_parser.py`, lines 64-100) once rate limiting stops: the probes
either raise some non-rate-limit exception (`err`) or complete with the
located bounds (`ok`, where a probe finding no message on the target day
yields `none` on that side).  The probing of the remote history itself is
an external call and is abstracted to its outcome. -/
inductive ProbeFinal where
  | err
  | ok (first last : Option Int)
deriving DecidableEq, Repr

/-- `find_date_boundaries` error discipline (lines 96-100): each
rate-limit signal carries a wait duration; the function sleeps exactly
that duration and retries the same probe; a non-rate-limit exception
resolves to `(none, none)` instead of propagating.  The input lists the
wait durations of the consecutive rate-limit signals, followed by the
first non-rate-limited outcome; the result pairs the returned bounds with
the sleeps performed, in order. -/
def find_date_boundaries : List Nat → ProbeFinal → (Option Int × Option Int) × List Nat
  | [], .err => ((none, none), [])
  | [], .ok first last => ((first, last), [])
  | k :: rest, fin =>
    let r := find_date_boundaries rest fin
    (r.1, k :: r.2)

/-- C6: `find_date_boundaries` never propagates: under any finite run of
rate-limit signals it sleeps exactly the signaled durations in order and
retries, and the eventual result is the probe outcome when the signals
stop succeed, or `(none, none)` when any other exception occurs. -/
theorem C6_retry_discipline (floods : List Nat) (fin : ProbeFinal) :
    (find_date_boundaries floods fin).2 = floods ∧
    (find_date_boundaries floods fin).1 =
      (match fin with
       | .err => (none, none)
       | .ok first last => (first, last)) := by
  induction floods with
  | nil => cases fin <;> simp [find_date_boundaries]
  | cons k rest ih =>
    cases fin <;> simp [find_date_boundaries, ih.1, ih.2]

/-- An account configuration record (`telegram_parser.py`, lines 185-188):
`none` models a missing or falsy credential, the case the guard rejects. -/
structure Account where
  phone_number : String
  api_id : Option Int
  api_hash : Option String

/-- The outcome of connecting and authenticating the client, covering the
outer `try` of `get_users_from_chats_enhanced` up to the dialog listing:
`sessionPasswordNeeded` models `SessionPasswordNeededError`, `otherError`
any other exception caught by the blanket handler. -/
inductive StartOutcome where
  | ok
  | sessionPasswordNeeded
  | otherError (msg : String)

/-- The result of one bounded per-dialog harvest as surfaced through
`asyncio.gather(..., return_exceptions=True)` (lines 236-248): either the
set of harvested rows or an exception, which is logged and skipped. -/
inductive DialogResult where
  | ok (users : List UserRow)
  | err (msg : String)

/-- The environment of one orchestration call: the outcome of every
external interaction `get_users_from_chats_enhanced` performs. -/
structure RunEnv where
  startOutcome : StartOutcome
  authorized : Bool
  dialogs : List Dialog
  harvest : Dialog → DialogResult
  dbReadOk : Bool
  dbWriteOk : Bool
  store : List UserRow
  fileOk : Bool

/-- Set-insert into the accumulated `all_users` set (line 243,
`all_users.update(result)`): an exact duplicate row is not added twice. -/
def setInsert (acc : List UserRow) (u : UserRow) : List UserRow :=
  if u ∈ acc then acc else acc ++ [u]

/-- Merge the per-dialog results into the account-level `all_users` set
(lines 240-246), skipping results that are exceptions. -/
def gatherUsers (results : List DialogResult) : List UserRow :=
  results.foldl
    (fun acc r =>
      match r with
      | .ok us => us.foldl setInsert acc
      | .err _ => acc) []

/-- `get_users_from_chats_enhanced` (`telegram_parser.py`, lines 180-304):
the full orchestration, returning the status lines and the optional reply
file path.  Every exception path of the source is a branch here: missing
credentials, 2FA requirement, any connection or listing error, missing
authorization, empty group list, empty harvest, database failure, and
reply-file failure all resolve to a returned message list. -/
def get_users_from_chats_enhanced (account : Account) (dateStr : String)
    (env : RunEnv) : List String × Option String :=
  if account.api_id = none ∨ account.api_hash = none then
    (["⚠️ Account " ++ account.phone_number ++ ": Missing API credentials"], none)
  else
    let m0 := ["🔄 Processing account " ++ account.phone_number ++ "..."]
    match env.startOutcome with
    | .sessionPasswordNeeded =>
      (m0 ++ ["❌ Account " ++ account.phone_number ++ ": 2FA password required"], none)
    | .otherError e =>
      (m0 ++ ["❌ Account " ++ account.phone_number ++ ": " ++ e], none)
    | .ok =>
      if !env.authorized then
        (m0 ++ ["❌ Account " ++ account.phone_number ++ " not authorized"], none)
      else
        let fd := filtered_dialogs env.dialogs
        let m1 := m0 ++ ["📌 Found " ++ toString fd.length ++
          " active groups (filtered from " ++ toString env.dialogs.length ++ " total)"]
        if fd.isEmpty then
          (m1 ++ ["⚠️ No suitable groups found"], none)
        else
          let all_users := gatherUsers (fd.map env.harvest)
          if all_users.isEmpty then
            (m1 ++ ["📌 No users collected from " ++ account.phone_number], none)
          else if !env.dbWriteOk then
            (m1 ++ ["⚠️ Database save error"], none)
          else
            let existing := get_existing_user_ids env.dbReadOk env.store
            let new_users := dedupFilter existing all_users
            if new_users.isEmpty then
              (m1 ++ ["📌 No new users found for " ++ account.phone_number], none)
            else
              let inserted := (insert_users env.store new_users).2
              let m2 := m1 ++ ["✅ Database updated: +" ++ toString inserted ++ " new users"]
              if env.fileOk then
                (m2 ++ ["💾 Reply file created: " ++ toString new_users.length ++ " users"],
                  some ("bot/data/reply/reply_" ++ account.phone_number ++ "_" ++
                    dateStr ++ ".xlsx"))
              else
                (m2 ++ ["⚠️ Reply file error"], none)

/-- C7: the orchestration never propagates a failure to its caller: for
every account configuration and every outcome of every external step it
returns a pair of status lines and optional file path, with at least one
status line on every path. -/
theorem C7_always_reports (account : Account) (dateStr : String) (env : RunEnv) :
    1 ≤ (get_users_from_chats_enhanced account dateStr env).1.length := by
  unfold get_users_from_chats_enhanced
  split
  · simp
  · split
    · simp
    · simp
    · dsimp only
      split_ifs <;> simp

/-- Witness for C10: with the identity-set read failed, the run filters
nothing and hands the whole batch to `insert_users`; and a row whose
triple is already stored is rejected by the constraint alone, leaving the
store unchanged. -/
theorem C10_witness :
    runPersist false [baseRow] [laterRow] = insert_users [baseRow] [laterRow] ∧
    insert_users [baseRow] [baseRow] = ([baseRow], 0) :=
  ⟨(C10_read_failure_empty_set [baseRow] [laterRow] baseRow).2.2.1 (by decide),
   (C10_read_failure_empty_set [baseRow] [laterRow] baseRow).2.2.2 (by decide)⟩
